import Mathlib

/-!
Verification of the ownership-alias generation macros of
`src/include/StandardDefines.h` (`DefineStandardPointers`,
`DefineStandardTypes`).  The macros are pure compile-time textual
substitution: each invocation expands to a fixed sequence of C++
declarations.  We embed C++ types and declarations shallowly and model an
invocation as the list of declarations its expansion produces, in source
order.
-/

namespace StandardDefines

/-- Shallow embedding of the C++ types occurring in the header.
`uniquePtr` is included because the header brings `std::unique_ptr` into
scope (`using std::unique_ptr;`), so an exclusive-ownership alias, had the
macro produced one, would be expressible. -/
inductive Ty where
  | classTy (name : String)
  | enumTy (name : String)
  | sharedPtr (t : Ty)
  | weakPtr (t : Ty)
  | uniquePtr (t : Ty)
  | constTy (t : Ty)
deriving DecidableEq, Repr

/-- A single C++ declaration produced by a macro expansion. -/
inductive Decl where
  | classFwd (name : String)
  | enumFwd (name : String)
  | typedefDecl (name : String) (ty : Ty)
deriving DecidableEq, Repr

/-- The name a declaration introduces. -/
def declName : Decl → String
  | .classFwd n => n
  | .enumFwd n => n
  | .typedefDecl n _ => n

/-- Expansion of `DefineStandardPointers(class_name)`
(src/include/StandardDefines.h lines 86-94), declaration by declaration in
source order. -/
def DefineStandardPointers (E : String) : List Decl :=
  [ .classFwd E,
    .typedefDecl ("C" ++ E) (.constTy (.classTy E)),
    .typedefDecl (E ++ "SPtr") (.sharedPtr (.classTy E)),
    .typedefDecl ("C" ++ E ++ "SPtr") (.constTy (.sharedPtr (.classTy E))),
    .typedefDecl (E ++ "WPtr") (.weakPtr (.classTy E)),
    .typedefDecl ("C" ++ E ++ "WPtr") (.constTy (.weakPtr (.classTy E))),
    .typedefDecl (E ++ "Ptr") (.sharedPtr (.classTy E)),
    .typedefDecl ("C" ++ E ++ "Ptr") (.constTy (.sharedPtr (.classTy E))) ]

/-- Expansion of `DefineStandardTypes(enum_name)`
(src/include/StandardDefines.h lines 98-100). -/
def DefineStandardTypes (T : String) : List Decl :=
  [ .enumFwd T,
    .typedefDecl ("C" ++ T) (.constTy (.enumTy T)) ]

/-- The type a typedef alias denotes in a declaration list: the type of the
first typedef carrying that name. -/
def aliasTyIn (ds : List Decl) (n : String) : Option Ty :=
  ds.findSome? fun d =>
    match d with
    | .typedefDecl m t => if m == n then some t else none
    | _ => none

/-- Remove outer const qualification. -/
def stripConst : Ty → Ty
  | .constTy t => stripConst t
  | t => t

/-- Whether a type is (outer) const-qualified. -/
def isConstTy : Ty → Bool
  | .constTy _ => true
  | _ => false

/-- A typedef whose underlying (const-stripped) type is an exclusive-owning
handle (`std::unique_ptr`). -/
def isExclusiveDecl : Decl → Bool
  | .typedefDecl _ t =>
    match stripConst t with
    | .uniquePtr _ => true
    | _ => false
  | _ => false

/-- A type that is (under const) an ownership-handle type. -/
def mentionsHandle : Ty → Bool
  | .sharedPtr _ => true
  | .weakPtr _ => true
  | .uniquePtr _ => true
  | .constTy t => mentionsHandle t
  | _ => false

/-- A declaration introducing an ownership-handle alias. -/
def declMentionsHandle : Decl → Bool
  | .typedefDecl _ t => mentionsHandle t
  | _ => false

/-! ### Declaration environment

A namespace-scope name environment, per the C++ redeclaration rules that
govern the macro expansions: a class or opaque-enum forward declaration may
be repeated, and a typedef may be redeclared in the same (non-class) scope
as long as it refers to the same type; any other reuse of a name is a
build error. -/

/-- What a name in scope is bound to. -/
inductive Binding where
  | classDeclared
  | enumDeclared
  | typedefTo (ty : Ty)
deriving DecidableEq, Repr

/-- Names in scope, most recently declared first. -/
abbrev Env := List (String × Binding)

/-- Process one declaration against the environment: a build error is
`Except.error` naming the conflicting identifier. -/
def declare (env : Env) : Decl → Except String Env
  | .classFwd n =>
    match env.lookup n with
    | Option.none => .ok ((n, .classDeclared) :: env)
    | some .classDeclared => .ok env
    | some _ => .error n
  | .enumFwd n =>
    match env.lookup n with
    | Option.none => .ok ((n, .enumDeclared) :: env)
    | some .enumDeclared => .ok env
    | some _ => .error n
  | .typedefDecl n t =>
    match env.lookup n with
    | Option.none => .ok ((n, .typedefTo t) :: env)
    | some (.typedefTo t') => if t' = t then .ok env else .error n
    | some _ => .error n

/-- Process a declaration sequence left to right, stopping at the first
build error. -/
def declareAll (env : Env) (ds : List Decl) : Except String Env :=
  ds.foldlM declare env

/-! ### Declaration-order checker -/

/-- The base (class/enum) names a type refers to. -/
def basesOf : Ty → List String
  | .classTy n => [n]
  | .enumTy n => [n]
  | .sharedPtr t => basesOf t
  | .weakPtr t => basesOf t
  | .uniquePtr t => basesOf t
  | .constTy t => basesOf t

/-- Scanning `ds` in order with `declared` the base names already
forward-declared, every alias only refers to base names forward-declared
strictly earlier. -/
def declaredFirst (declared : List String) : List Decl → Bool
  | [] => true
  | .classFwd n :: ds => declaredFirst (n :: declared) ds
  | .enumFwd n :: ds => declaredFirst (n :: declared) ds
  | .typedefDecl _ t :: ds =>
    (basesOf t).all declared.contains && declaredFirst declared ds

/-! ### Const access model -/

/-- Modelled from the spec: the C++ const-qualification access discipline
("read access through `CE` must compile, write access must not") — the
compiler enforcing it is outside this repository. -/
inductive Access where
  | read
  | write
deriving DecidableEq, Repr

/-- Whether an access mode is permitted through a type: const qualification
disables writes and leaves reads as they are. -/
def allows : Ty → Access → Bool
  | .constTy _, .write => false
  | .constTy t, .read => allows t .read
  | _, _ => true

/-! ### Reference-count ownership model -/

/-- Modelled from the spec: the runtime ownership semantics of the standard
shared/weak handles (`std::shared_ptr`/`std::weak_ptr`) that the generated
aliases denote; the standard library implementing them is outside this
repository.  One entity, with its strong (owning) and weak handle counts
and whether it has been destroyed. -/
structure RCState where
  strong : Nat
  weak : Nat
  destroyed : Bool
deriving DecidableEq, Repr

/-- Handle events: copying or discarding a shared (strong) or weak handle. -/
inductive RCOp where
  | copyStrong
  | dropStrong
  | copyWeak
  | dropWeak
deriving DecidableEq, Repr

/-- One event: discarding the last strong handle destroys the entity; weak
handles never touch the strong count. -/
def rcStep (s : RCState) : RCOp → RCState
  | .copyStrong => { s with strong := s.strong + 1 }
  | .dropStrong =>
    if s.strong = 1 then { s with strong := 0, destroyed := true }
    else { s with strong := s.strong - 1 }
  | .copyWeak => { s with weak := s.weak + 1 }
  | .dropWeak => { s with weak := s.weak - 1 }

/-- Run a sequence of handle events. -/
def rcRun (s : RCState) (ops : List RCOp) : RCState := ops.foldl rcStep s

/-- Entity freshly created with one owning handle. -/
def rcInit : RCState := ⟨1, 0, false⟩

/-- Modelled from the spec: the weak handle's "try to obtain a live owning
handle, or signal absence" operation (`std::weak_ptr::lock`).  Succeeding
yields a new owning handle. -/
def lock (s : RCState) : Option RCState :=
  if s.strong = 0 then none else some { s with strong := s.strong + 1 }

/-! ### Naming-rule model -/

/-- The alias suffixes of the spec's naming rules. -/
inductive HandleSuffix where
  | base
  | sptr
  | ptr
  | wptr
deriving DecidableEq, Repr

/-- Text of each suffix. -/
def suffixStr : HandleSuffix → String
  | .base => ""
  | .sptr => "SPtr"
  | .ptr => "Ptr"
  | .wptr => "WPtr"

/-- Modelled from the spec's fixed naming rules: a declaration for base name
`E` with const marker `c` and suffix `suf` is named by prefixing `C` iff
`c` and appending the suffix, the `C` prefix marks exactly the
const-qualified aliases, the `SPtr`/`Ptr` suffixes mark shared-owning
handles to `E`, the `WPtr` suffix marks weak handles to `E`, and the bare
name is the entity itself. -/
def ruleBinding (E : String) (c : Bool) (suf : HandleSuffix) (d : Decl) : Prop :=
  declName d = (if c then "C" else "") ++ E ++ suffixStr suf ∧
  match d, suf with
  | .classFwd _, .base => c = false
  | .typedefDecl _ t, .base => isConstTy t = c ∧ stripConst t = .classTy E
  | .typedefDecl _ t, .sptr => isConstTy t = c ∧ stripConst t = .sharedPtr (.classTy E)
  | .typedefDecl _ t, .ptr => isConstTy t = c ∧ stripConst t = .sharedPtr (.classTy E)
  | .typedefDecl _ t, .wptr => isConstTy t = c ∧ stripConst t = .weakPtr (.classTy E)
  | _, _ => False

/-! ### String helper lemmas: the eight generated names are pairwise
distinct for every base name, by length or by counting an alphabet
letter. -/

/-- Occurrences of a character in a string. -/
def cnt (c : Char) (s : String) : Nat := s.data.count c

/-- Fingerprint separating the eight generated names: length and the
occurrence counts of the letters S and W. -/
def fp (s : String) : Nat × Nat × Nat := (s.length, cnt 'S' s, cnt 'W' s)

lemma cnt_append (c : Char) (s t : String) : cnt c (s ++ t) = cnt c s + cnt c t := by
  simp [cnt, String.data_append, List.count_append]

lemma ne_of_length_ne {s t : String} (h : s.length ≠ t.length) : s ≠ t :=
  fun e => h (by rw [e])

lemma ne_of_cnt_ne (c : Char) {s t : String} (h : cnt c s ≠ cnt c t) : s ≠ t :=
  fun e => h (by rw [e])

lemma len_C : ("C" : String).length = 1 := rfl

lemma len_SPtr : ("SPtr" : String).length = 4 := rfl

lemma len_WPtr : ("WPtr" : String).length = 4 := rfl

lemma len_Ptr : ("Ptr" : String).length = 3 := rfl

lemma cnt_S_C : cnt 'S' "C" = 0 := rfl

lemma cnt_S_SPtr : cnt 'S' "SPtr" = 1 := rfl

lemma cnt_S_WPtr : cnt 'S' "WPtr" = 0 := rfl

lemma cnt_S_Ptr : cnt 'S' "Ptr" = 0 := rfl

lemma cnt_W_C : cnt 'W' "C" = 0 := rfl

lemma cnt_W_SPtr : cnt 'W' "SPtr" = 0 := rfl

lemma cnt_W_WPtr : cnt 'W' "WPtr" = 1 := rfl

lemma cnt_W_Ptr : cnt 'W' "Ptr" = 0 := rfl

lemma ne_CE_SPtr (E : String) : "C" ++ E ≠ E ++ "SPtr" :=
  ne_of_length_ne (by simp only [String.length_append, len_C, len_SPtr]; omega)

lemma ne_CE_CSPtr (E : String) : "C" ++ E ≠ "C" ++ E ++ "SPtr" :=
  ne_of_length_ne (by simp only [String.length_append, len_C, len_SPtr]; omega)

lemma ne_SPtr_CSPtr (E : String) : E ++ "SPtr" ≠ "C" ++ E ++ "SPtr" :=
  ne_of_length_ne (by simp only [String.length_append, len_C, len_SPtr]; omega)

lemma ne_CE_Ptr (E : String) : "C" ++ E ≠ E ++ "Ptr" :=
  ne_of_length_ne (by simp only [String.length_append, len_C, len_Ptr]; omega)

lemma ne_SPtr_Ptr (E : String) : E ++ "SPtr" ≠ E ++ "Ptr" :=
  ne_of_length_ne (by simp only [String.length_append, len_SPtr, len_Ptr]; omega)

lemma ne_CSPtr_Ptr (E : String) : "C" ++ E ++ "SPtr" ≠ E ++ "Ptr" :=
  ne_of_length_ne (by simp only [String.length_append, len_C, len_SPtr, len_Ptr]; omega)

lemma ne_WPtr_Ptr (E : String) : E ++ "WPtr" ≠ E ++ "Ptr" :=
  ne_of_length_ne (by simp only [String.length_append, len_WPtr, len_Ptr]; omega)

lemma ne_CWPtr_Ptr (E : String) : "C" ++ E ++ "WPtr" ≠ E ++ "Ptr" :=
  ne_of_length_ne (by simp only [String.length_append, len_C, len_WPtr, len_Ptr]; omega)

lemma ne_CE_CPtr (E : String) : "C" ++ E ≠ "C" ++ E ++ "Ptr" :=
  ne_of_length_ne (by simp only [String.length_append, len_C, len_Ptr]; omega)

lemma ne_SPtr_CPtr (E : String) : E ++ "SPtr" ≠ "C" ++ E ++ "Ptr" :=
  ne_of_cnt_ne 'S' (by
    simp only [cnt_append, cnt_S_C, cnt_S_SPtr, cnt_S_Ptr]; omega)

lemma ne_CSPtr_CPtr (E : String) : "C" ++ E ++ "SPtr" ≠ "C" ++ E ++ "Ptr" :=
  ne_of_length_ne (by simp only [String.length_append, len_C, len_SPtr, len_Ptr]; omega)

lemma ne_WPtr_CPtr (E : String) : E ++ "WPtr" ≠ "C" ++ E ++ "Ptr" :=
  ne_of_cnt_ne 'W' (by
    simp only [cnt_append, cnt_W_C, cnt_W_WPtr, cnt_W_Ptr]; omega)

lemma ne_CWPtr_CPtr (E : String) : "C" ++ E ++ "WPtr" ≠ "C" ++ E ++ "Ptr" :=
  ne_of_length_ne (by simp only [String.length_append, len_C, len_WPtr, len_Ptr]; omega)

lemma ne_Ptr_CPtr (E : String) : E ++ "Ptr" ≠ "C" ++ E ++ "Ptr" :=
  ne_of_length_ne (by simp only [String.length_append, len_C, len_Ptr]; omega)

/-- For every base name the eight generated names are pairwise distinct. -/
lemma pointersNames_nodup (E : String) :
    ((DefineStandardPointers E).map declName).Nodup := by
  have h : (((DefineStandardPointers E).map declName).map fp).Nodup := by
    simp only [DefineStandardPointers, List.map, declName, fp,
      String.length_append, cnt_append, len_C, len_SPtr, len_WPtr, len_Ptr,
      cnt_S_C, cnt_S_SPtr, cnt_S_WPtr, cnt_S_Ptr,
      cnt_W_C, cnt_W_SPtr, cnt_W_WPtr, cnt_W_Ptr,
      List.nodup_cons, List.mem_cons, List.not_mem_nil, List.nodup_nil,
      Prod.mk.injEq, not_or, or_false, and_true, not_false_eq_true, true_and]
    omega
  exact h.of_map fp

/-- The type the `{E}SPtr` alias denotes. -/
lemma aliasTy_SPtr (E : String) :
    aliasTyIn (DefineStandardPointers E) (E ++ "SPtr")
      = some (.sharedPtr (.classTy E)) := by
  simp [aliasTyIn, List.findSome?, DefineStandardPointers, ne_CE_SPtr E]

/-- The type the `C{E}SPtr` alias denotes. -/
lemma aliasTy_CSPtr (E : String) :
    aliasTyIn (DefineStandardPointers E) ("C" ++ E ++ "SPtr")
      = some (.constTy (.sharedPtr (.classTy E))) := by
  simp [aliasTyIn, List.findSome?, DefineStandardPointers,
    ne_CE_CSPtr E, ne_SPtr_CSPtr E]

/-- The type the `{E}Ptr` alias denotes. -/
lemma aliasTy_Ptr (E : String) :
    aliasTyIn (DefineStandardPointers E) (E ++ "Ptr")
      = some (.sharedPtr (.classTy E)) := by
  simp [aliasTyIn, List.findSome?, DefineStandardPointers,
    ne_CE_Ptr E, ne_SPtr_Ptr E, ne_CSPtr_Ptr E, ne_WPtr_Ptr E, ne_CWPtr_Ptr E]

/-- The type the `C{E}Ptr` alias denotes. -/
lemma aliasTy_CPtr (E : String) :
    aliasTyIn (DefineStandardPointers E) ("C" ++ E ++ "Ptr")
      = some (.constTy (.sharedPtr (.classTy E))) := by
  simp [aliasTyIn, List.findSome?, DefineStandardPointers,
    ne_CE_CPtr E, ne_SPtr_CPtr E, ne_CSPtr_CPtr E, ne_WPtr_CPtr E,
    ne_CWPtr_CPtr E, ne_Ptr_CPtr E]

/-- The type the `C{E}` alias denotes. -/
lemma aliasTy_CE (E : String) :
    aliasTyIn (DefineStandardPointers E) ("C" ++ E)
      = some (.constTy (.classTy E)) := by
  simp [aliasTyIn, List.findSome?, DefineStandardPointers]

/-! ### Redeclaration lemmas: replaying a successfully declared sequence
against the resulting environment succeeds and changes nothing. -/

/-- The binding a declaration establishes. -/
def bindingOf : Decl → Binding
  | .classFwd _ => .classDeclared
  | .enumFwd _ => .enumDeclared
  | .typedefDecl _ t => .typedefTo t

lemma declareAll_nil (env : Env) : declareAll env [] = .ok env := rfl

lemma declareAll_cons (env : Env) (d : Decl) (ds : List Decl) :
    declareAll env (d :: ds) =
      match declare env d with
      | .ok e => declareAll e ds
      | .error s => .error s := by
  cases h : declare env d <;>
    simp only [declareAll, List.foldlM, h] <;> rfl

lemma declare_ok_lookup {env env' : Env} {d : Decl}
    (h : declare env d = .ok env') :
    env'.lookup (declName d) = some (bindingOf d) := by
  cases d with
  | classFwd n =>
    simp only [declare] at h
    split at h
    · cases h; simp [List.lookup, declName, bindingOf]
    · cases h; simp_all [declName, bindingOf]
    · cases h
  | enumFwd n =>
    simp only [declare] at h
    split at h
    · cases h; simp [List.lookup, declName, bindingOf]
    · cases h; simp_all [declName, bindingOf]
    · cases h
  | typedefDecl n t =>
    simp only [declare] at h
    split at h
    · cases h; simp [List.lookup, declName, bindingOf]
    · split at h
      · cases h; simp_all [declName, bindingOf]
      · cases h
    · cases h

lemma declare_lookup_preserved {env env' : Env} {d : Decl}
    (h : declare env d = .ok env') {n : String} {b : Binding}
    (hl : env.lookup n = some b) : env'.lookup n = some b := by
  cases d with
  | classFwd m =>
    simp only [declare] at h
    split at h
    · cases h
      have hnm : (n == m) = false := by
        simp only [beq_eq_false_iff_ne, ne_eq]
        intro e; subst e; simp_all
      simp [List.lookup, hnm, hl]
    · cases h; exact hl
    · cases h
  | enumFwd m =>
    simp only [declare] at h
    split at h
    · cases h
      have hnm : (n == m) = false := by
        simp only [beq_eq_false_iff_ne, ne_eq]
        intro e; subst e; simp_all
      simp [List.lookup, hnm, hl]
    · cases h; exact hl
    · cases h
  | typedefDecl m t =>
    simp only [declare] at h
    split at h
    · cases h
      have hnm : (n == m) = false := by
        simp only [beq_eq_false_iff_ne, ne_eq]
        intro e; subst e; simp_all
      simp [List.lookup, hnm, hl]
    · split at h
      · cases h; exact hl
      · cases h
    · cases h

lemma declareAll_lookup_preserved {ds : List Decl} :
    ∀ {env env' : Env}, declareAll env ds = .ok env' →
      ∀ {n : String} {b : Binding},
        env.lookup n = some b → env'.lookup n = some b := by
  induction ds with
  | nil =>
    intro env env' h n b hl
    rw [declareAll_nil] at h; cases h; exact hl
  | cons d ds ih =>
    intro env env' h n b hl
    rw [declareAll_cons] at h
    cases hd : declare env d with
    | error s => simp [hd] at h
    | ok e =>
      simp only [hd] at h
      exact ih h (declare_lookup_preserved hd hl)

lemma declare_of_lookup {env : Env} {d : Decl}
    (h : env.lookup (declName d) = some (bindingOf d)) :
    declare env d = .ok env := by
  cases d with
  | classFwd n => simp only [declName, bindingOf] at h; simp [declare, h]
  | enumFwd n => simp only [declName, bindingOf] at h; simp [declare, h]
  | typedefDecl n t => simp only [declName, bindingOf] at h; simp [declare, h]

lemma declareAll_replay {ds : List Decl} :
    ∀ {env env' : Env}, declareAll env ds = .ok env' →
      declareAll env' ds = .ok env' := by
  induction ds with
  | nil => intro env env' h; rw [declareAll_nil] at h; cases h; rfl
  | cons d ds ih =>
    intro env env' h
    rw [declareAll_cons] at h
    cases hd : declare env d with
    | error s => simp [hd] at h
    | ok e =>
      simp only [hd] at h
      have h3 : declare env' d = .ok env' :=
        declare_of_lookup (declareAll_lookup_preserved h (declare_ok_lookup hd))
      simp only [declareAll_cons, h3]
      exact ih h

/-! ### Reference-count evolution lemmas -/

lemma rcRun_nil (s : RCState) : rcRun s [] = s := rfl

lemma rcRun_cons (s : RCState) (op : RCOp) (ops : List RCOp) :
    rcRun s (op :: ops) = rcRun (rcStep s op) ops := rfl

lemma rcRun_append (s : RCState) (ops1 ops2 : List RCOp) :
    rcRun s (ops1 ++ ops2) = rcRun (rcRun s ops1) ops2 := by
  simp [rcRun, List.foldl_append]

lemma rcRun_copies (k : Nat) :
    ∀ s : RCState,
      rcRun s (List.replicate k RCOp.copyStrong)
        = { s with strong := s.strong + k } := by
  induction k with
  | zero => intro s; simp [rcRun_nil]
  | succ k ih =>
    intro s
    rw [List.replicate_succ, rcRun_cons, ih]
    simp [rcStep, RCState.mk.injEq]
    omega

lemma rcRun_drops (k : Nat) :
    ∀ s : RCState, k < s.strong →
      rcRun s (List.replicate k RCOp.dropStrong)
        = { s with strong := s.strong - k } := by
  induction k with
  | zero => intro s _; simp [rcRun_nil]
  | succ k ih =>
    intro s hk
    rw [List.replicate_succ, rcRun_cons]
    have hne : s.strong ≠ 1 := by omega
    have hs : rcStep s RCOp.dropStrong = { s with strong := s.strong - 1 } := by
      simp [rcStep, hne]
    rw [hs, ih _ (by simp; omega)]
    simp [RCState.mk.injEq]
    omega

lemma rcRun_weakOps (ops : List RCOp) :
    ∀ s : RCState, (∀ op ∈ ops, op = RCOp.copyWeak ∨ op = RCOp.dropWeak) →
      (rcRun s ops).strong = s.strong ∧
      (rcRun s ops).destroyed = s.destroyed := by
  induction ops with
  | nil => intro s _; exact ⟨rfl, rfl⟩
  | cons op ops ih =>
    intro s hops
    rw [rcRun_cons]
    have hstep : (rcStep s op).strong = s.strong ∧
        (rcStep s op).destroyed = s.destroyed := by
      rcases hops op (List.mem_cons_self op ops) with h | h <;> subst h <;>
        simp [rcStep]
    obtain ⟨h1, h2⟩ := ih (rcStep s op) fun o ho => hops o (List.mem_cons_of_mem op ho)
    exact ⟨h1.trans hstep.1, h2.trans hstep.2⟩

/-- Environment produced by `DefineStandardPointers(Widget)` from an empty
scope. -/
def widgetEnv : Env :=
  [ ("CWidgetPtr", .typedefTo (.constTy (.sharedPtr (.classTy "Widget")))),
    ("WidgetPtr", .typedefTo (.sharedPtr (.classTy "Widget"))),
    ("CWidgetWPtr", .typedefTo (.constTy (.weakPtr (.classTy "Widget")))),
    ("WidgetWPtr", .typedefTo (.weakPtr (.classTy "Widget"))),
    ("CWidgetSPtr", .typedefTo (.constTy (.sharedPtr (.classTy "Widget")))),
    ("WidgetSPtr", .typedefTo (.sharedPtr (.classTy "Widget"))),
    ("CWidget", .typedefTo (.constTy (.classTy "Widget"))),
    ("Widget", .classDeclared) ]

/-- Environment produced by `DefineStandardTypes(Color)` from an empty
scope. -/
def colorEnv : Env :=
  [ ("CColor", .typedefTo (.constTy (.enumTy "Color"))),
    ("Color", .enumDeclared) ]

/-! ### Claim theorems -/

/-- C1 (counterexample): contrary to the claim, `DefineStandardPointers`
does not expose any exclusive-ownership handle alias: at base name
`Widget`, no generated declaration's type is (under const) a
`unique_ptr`. -/
theorem exclusive_pair_refuted :
    ¬ ∃ d ∈ DefineStandardPointers "Widget", isExclusiveDecl d = true := by
  decide

/-- C1 (amended): the generator exposes no exclusive-ownership handle
alias at any base name — every handle alias it introduces is shared-owning
or weak — and the `{E}Ptr`/`C{E}Ptr` pair denotes the very same
shared-owning types as the `{E}SPtr`/`C{E}SPtr` pair rather than a
semantically distinct exclusive pair. -/
theorem handles_shared_or_weak (E : String) :
    (DefineStandardPointers E).all (fun d => !(isExclusiveDecl d)) = true ∧
    aliasTyIn (DefineStandardPointers E) (E ++ "Ptr")
      = aliasTyIn (DefineStandardPointers E) (E ++ "SPtr") ∧
    aliasTyIn (DefineStandardPointers E) ("C" ++ E ++ "Ptr")
      = aliasTyIn (DefineStandardPointers E) ("C" ++ E ++ "SPtr") := by
  refine ⟨rfl, ?_, ?_⟩
  · rw [aliasTy_Ptr, aliasTy_SPtr]
  · rw [aliasTy_CPtr, aliasTy_CSPtr]

/-- C2: for every base name `E`, one invocation of
`DefineStandardPointers(E)` introduces exactly the eight names `E`, `CE`,
`{E}Ptr`, `C{E}Ptr`, `{E}SPtr`, `C{E}SPtr`, `{E}WPtr`, `C{E}WPtr` — no
omissions, no extras, and the eight names are pairwise distinct. -/
theorem pointers_names_exact (E : String) :
    ((DefineStandardPointers E).map declName).Perm
      [E, "C" ++ E, E ++ "Ptr", "C" ++ E ++ "Ptr", E ++ "SPtr",
       "C" ++ E ++ "SPtr", E ++ "WPtr", "C" ++ E ++ "WPtr"] ∧
    ((DefineStandardPointers E).map declName).Nodup := by
  refine ⟨?_, pointersNames_nodup E⟩
  show ([E, "C" ++ E] ++
      ([E ++ "SPtr", "C" ++ E ++ "SPtr", E ++ "WPtr", "C" ++ E ++ "WPtr"] ++
       [E ++ "Ptr", "C" ++ E ++ "Ptr"])).Perm
    ([E, "C" ++ E] ++
      ([E ++ "Ptr", "C" ++ E ++ "Ptr"] ++
       [E ++ "SPtr", "C" ++ E ++ "SPtr", E ++ "WPtr", "C" ++ E ++ "WPtr"]))
  exact List.Perm.append_left _ List.perm_append_comm

/-- C3: for every base name `E`, the `{E}Ptr` alias denotes the same type
as the `{E}SPtr` alias (a shared-owning handle to `E`) and the `C{E}Ptr`
alias denotes the same type as the `C{E}SPtr` alias (its const
qualification): the Ptr and SPtr families are one handle kind, not two. -/
theorem ptr_sptr_same_type (E : String) :
    aliasTyIn (DefineStandardPointers E) (E ++ "Ptr")
      = aliasTyIn (DefineStandardPointers E) (E ++ "SPtr") ∧
    aliasTyIn (DefineStandardPointers E) ("C" ++ E ++ "Ptr")
      = aliasTyIn (DefineStandardPointers E) ("C" ++ E ++ "SPtr") ∧
    aliasTyIn (DefineStandardPointers E) (E ++ "Ptr")
      = some (.sharedPtr (.classTy E)) ∧
    aliasTyIn (DefineStandardPointers E) ("C" ++ E ++ "Ptr")
      = some (.constTy (.sharedPtr (.classTy E))) := by
  refine ⟨?_, ?_, aliasTy_Ptr E, aliasTy_CPtr E⟩
  · rw [aliasTy_Ptr, aliasTy_SPtr]
  · rw [aliasTy_CPtr, aliasTy_CSPtr]

/-- C4 (counterexample): contrary to the claim, invoking either macro
twice for the same name in the same (namespace) scope is not a build
error: both double expansions are accepted, because C++ allows repeating a
forward declaration and redeclaring a typedef to the type it already
names. -/
theorem double_invocation_accepted :
    (declareAll []
        (DefineStandardPointers "Widget" ++ DefineStandardPointers "Widget")).isOk
      = true ∧
    (declareAll []
        (DefineStandardTypes "Color" ++ DefineStandardTypes "Color")).isOk
      = true := by
  decide

/-- C4 (amended): at namespace scope a second invocation of
`DefineStandardPointers(E)` (or `DefineStandardTypes(T)`) for the same
name is accepted silently and leaves the environment unchanged, since
every generated declaration redeclares the same name with the same
meaning; an error would arise only if a generated name were already bound
differently. -/
theorem redeclaration_idempotent (E T : String) (env envE envT : Env) :
    (declareAll env (DefineStandardPointers E) = .ok envE →
      declareAll envE (DefineStandardPointers E) = .ok envE) ∧
    (declareAll env (DefineStandardTypes T) = .ok envT →
      declareAll envT (DefineStandardTypes T) = .ok envT) :=
  ⟨fun h => declareAll_replay h, fun h => declareAll_replay h⟩

/-- C4 (witness): the amended theorem applied to concrete invocations
`DefineStandardPointers(Widget)` and `DefineStandardTypes(Color)` from an
empty scope. -/
theorem redeclaration_idempotent_witness :
    declareAll widgetEnv (DefineStandardPointers "Widget") = .ok widgetEnv ∧
    declareAll colorEnv (DefineStandardTypes "Color") = .ok colorEnv :=
  ⟨(redeclaration_idempotent "Widget" "Color" [] widgetEnv colorEnv).1 rfl,
   (redeclaration_idempotent "Widget" "Color" [] widgetEnv colorEnv).2 rfl⟩

/-- C5: every declaration generated by `DefineStandardPointers(E)` follows
the fixed naming rules: its name is `E` with an optional `C` prefix and
optional suffix, the `C` prefix marks exactly the const-qualified
(immutable) aliases, the `SPtr`/`Ptr` suffixes mark shared-owning handles
to `E`, the `WPtr` suffix marks weak handles to `E`, and the bare name is
the entity's own declaration. -/
theorem names_follow_rules (E : String) (d : Decl)
    (hd : d ∈ DefineStandardPointers E) :
    ∃ (c : Bool) (suf : HandleSuffix), ruleBinding E c suf d := by
  fin_cases hd
  · exact ⟨false, .base, by simp [ruleBinding, declName, suffixStr]⟩
  · exact ⟨true, .base,
      by simp [ruleBinding, declName, suffixStr, isConstTy, stripConst]⟩
  · exact ⟨false, .sptr,
      by simp [ruleBinding, declName, suffixStr, isConstTy, stripConst]⟩
  · exact ⟨true, .sptr,
      by simp [ruleBinding, declName, suffixStr, isConstTy, stripConst]⟩
  · exact ⟨false, .wptr,
      by simp [ruleBinding, declName, suffixStr, isConstTy, stripConst]⟩
  · exact ⟨true, .wptr,
      by simp [ruleBinding, declName, suffixStr, isConstTy, stripConst]⟩
  · exact ⟨false, .ptr,
      by simp [ruleBinding, declName, suffixStr, isConstTy, stripConst]⟩
  · exact ⟨true, .ptr,
      by simp [ruleBinding, declName, suffixStr, isConstTy, stripConst]⟩

/-- C5 (witness): the naming-rule theorem at base name `Widget` and the
`CWidgetSPtr` declaration. -/
theorem names_follow_rules_witness :
    ∃ (c : Bool) (suf : HandleSuffix),
      ruleBinding "Widget" c suf
        (Decl.typedefDecl "CWidgetSPtr"
          (.constTy (.sharedPtr (.classTy "Widget")))) :=
  names_follow_rules "Widget"
    (Decl.typedefDecl "CWidgetSPtr" (.constTy (.sharedPtr (.classTy "Widget"))))
    (by decide)

/-- C6: an entity created with one shared-owning handle, after the handle
is copied N-1 more times (N handles total) and N-1 of them are discarded,
is still alive with one handle remaining; discarding that last handle
destroys it.  Aliveness tracks exactly the existence of a shared handle in
the reference-count model. -/
theorem shared_handle_lifetime (N : Nat) (_h : 1 ≤ N) :
    rcRun rcInit
        (List.replicate (N - 1) RCOp.copyStrong ++
         List.replicate (N - 1) RCOp.dropStrong) = ⟨1, 0, false⟩ ∧
    rcRun rcInit
        ((List.replicate (N - 1) RCOp.copyStrong ++
          List.replicate (N - 1) RCOp.dropStrong) ++ [RCOp.dropStrong])
      = ⟨0, 0, true⟩ := by
  have h1 : rcRun rcInit
      (List.replicate (N - 1) RCOp.copyStrong ++
       List.replicate (N - 1) RCOp.dropStrong) = ⟨1, 0, false⟩ := by
    rw [rcRun_append, rcRun_copies, rcRun_drops _ _ (by simp [rcInit])]
    simp [rcInit]
  refine ⟨h1, ?_⟩
  rw [rcRun_append, h1]
  simp [rcRun_cons, rcRun_nil, rcStep]

/-- C6 (witness): the lifetime theorem at N = 3. -/
theorem shared_handle_lifetime_witness :
    rcRun rcInit
        (List.replicate 2 RCOp.copyStrong ++
         List.replicate 2 RCOp.dropStrong) = ⟨1, 0, false⟩ ∧
    rcRun rcInit
        ((List.replicate 2 RCOp.copyStrong ++
          List.replicate 2 RCOp.dropStrong) ++ [RCOp.dropStrong])
      = ⟨0, 0, true⟩ :=
  shared_handle_lifetime 3 (by decide)

/-- C7: obtaining a live owning handle from a weak handle after the last
owning handle is gone reports absence (`none`) rather than a dangling
reference, and weak-handle events never change the owning count or destroy
state — a weak handle never extends the entity's lifetime. -/
theorem weak_handle_absence (s : RCState) (ops : List RCOp)
    (hops : ∀ op ∈ ops, op = RCOp.copyWeak ∨ op = RCOp.dropWeak) :
    (s.strong = 0 → lock s = Option.none) ∧
    (rcRun s ops).strong = s.strong ∧
    (rcRun s ops).destroyed = s.destroyed := by
  refine ⟨fun h0 => by simp [lock, h0], ?_, ?_⟩
  · exact (rcRun_weakOps ops s hops).1
  · exact (rcRun_weakOps ops s hops).2

/-- C7 (witness): the absence theorem on a destroyed entity with two weak
handle events. -/
theorem weak_handle_absence_witness :
    lock ⟨0, 2, true⟩ = Option.none ∧
    (rcRun ⟨0, 2, true⟩ [RCOp.copyWeak, RCOp.dropWeak]).strong = 0 ∧
    (rcRun ⟨0, 2, true⟩ [RCOp.copyWeak, RCOp.dropWeak]).destroyed = true := by
  obtain ⟨h1, h2, h3⟩ :=
    weak_handle_absence ⟨0, 2, true⟩ [RCOp.copyWeak, RCOp.dropWeak] (by decide)
  exact ⟨h1 rfl, h2, h3⟩

/-- C8: for every base name `E` the alias `CE` denotes `const E` — the
same underlying type as `E` with only immutability added: read access
through it behaves as through `E`, and write access through it is
rejected while write access through `E` is allowed. -/
theorem const_alias_semantics (E : String) :
    aliasTyIn (DefineStandardPointers E) ("C" ++ E)
      = some (.constTy (.classTy E)) ∧
    stripConst (.constTy (.classTy E)) = .classTy E ∧
    allows (.constTy (.classTy E)) .read = allows (.classTy E) .read ∧
    allows (.constTy (.classTy E)) .write = false ∧
    allows (.classTy E) .write = true :=
  ⟨aliasTy_CE E, rfl, rfl, rfl, rfl⟩

/-- C9: for every enum name `T`, `DefineStandardTypes(T)` introduces
exactly the two names `T` (a forward declaration) and `CT` (= `const T`),
and none of its declarations is an ownership-handle alias. -/
theorem enum_alias_pair (T : String) :
    (DefineStandardTypes T).map declName = [T, "C" ++ T] ∧
    aliasTyIn (DefineStandardTypes T) ("C" ++ T)
      = some (.constTy (.enumTy T)) ∧
    (DefineStandardTypes T).all (fun d => !(declMentionsHandle d)) = true := by
  refine ⟨rfl, ?_, rfl⟩
  simp [aliasTyIn, List.findSome?, DefineStandardTypes]

/-- C10: in both macro expansions the forward declaration of the base name
comes before every alias referring to it: scanning the generated sequence
in order, each alias only mentions base names already forward-declared. -/
theorem fwd_decl_precedes_alias (E T : String) :
    declaredFirst [] (DefineStandardPointers E) = true ∧
    declaredFirst [] (DefineStandardTypes T) = true := by
  constructor <;>
    simp [declaredFirst, DefineStandardPointers, DefineStandardTypes, basesOf,
      List.contains]

end StandardDefines
